import Mathlib

/-!
Verification of the networked-physics core of the cyberia2000-physics
repository: a shallow embedding in Lean 4 of the server-side player physics
manager (`src/server/player-physics.js`), the terrain chunk streaming manager
and server tick loop (`src/server/terrain-physics.js`), the physics world
bookkeeping (`src/server/physics-world.js`), the vehicle manager
(`VehiclePhysicsManager`), and the client prediction / interpolation code
(`src/js/player-controller.js`, `src/js/network-client.js`).

Modelling conventions:
* JS numbers are modelled as exact rationals (`ℚ`); every comparison and
  arithmetic operation of the source is translated verbatim over `ℚ`.
* JS `Map` objects are modelled as insertion-ordered association lists with
  `Map.set` / `Map.get` / `Map.delete` semantics (`alSet` / `alGet` /
  key-filtering); JS `Set` objects as duplicate-free insertion-ordered lists.
* The external collaborators that the spec declares out of scope — the
  `Math` library transcendentals, the Rapier raycast that decides
  groundedness, and the terrain-noise oracle `height(x,z)` /
  `cityInfluence(x,z)` — appear as parameters (`Env`, `NoiseOracle`), since
  the embedded code only consumes their values.
* Euclidean-distance threshold comparisons (`dist > c` with `c > 0`) are
  embedded as the equivalent squared comparisons (`dist² > c²`), which keeps
  the definitions inside `ℚ`.
-/

namespace Cyberia

/-- Vector of three rational coordinates, standing for the `{x, y, z}`
objects and `THREE.Vector3` values of the source. -/
structure Vec3 where
  x : ℚ
  y : ℚ
  z : ℚ
deriving DecidableEq

/-- Componentwise sum, as in the source's `addVectors` / `Vector3.add`. -/
def vadd (a b : Vec3) : Vec3 :=
  { x := a.x + b.x, y := a.y + b.y, z := a.z + b.z }

/-- Scalar multiple, as in the source's `scaleVector` / `addScaledVector`. -/
def vscale (v : Vec3) (s : ℚ) : Vec3 :=
  { x := v.x * s, y := v.y * s, z := v.z * s }

/-- Linear interpolation `a + (b - a) * t`, the `lerp` of the source
(`network-client.js` and `THREE.MathUtils.lerp`). -/
def lerpQ (a b t : ℚ) : ℚ :=
  a + (b - a) * t

/-- Componentwise linear interpolation, the source's `Vector3.lerp` /
`Vector3.lerpVectors`. -/
def lerpVec (a b : Vec3) (t : ℚ) : Vec3 :=
  { x := lerpQ a.x b.x t, y := lerpQ a.y b.y t, z := lerpQ a.z b.z t }

/-- Squared Euclidean distance.  The source compares
`predictedPosition.distanceTo(serverPos)` against positive thresholds; those
comparisons are embedded against the squared thresholds. -/
def distSq (a b : Vec3) : ℚ :=
  (a.x - b.x) ^ 2 + (a.y - b.y) ^ 2 + (a.z - b.z) ^ 2

/-- Lookup in an insertion-ordered association list (JS `Map.get`). -/
def alGet {κ α : Type} [DecidableEq κ] (m : List (κ × α)) (k : κ) : Option α :=
  match m with
  | [] => none
  | (k2, v) :: rest => if k2 = k then some v else alGet rest k

/-- Update in an insertion-ordered association list (JS `Map.set`): an
existing key keeps its position, a new key is appended. -/
def alSet {κ α : Type} [DecidableEq κ] (m : List (κ × α)) (k : κ) (v : α) :
    List (κ × α) :=
  match m with
  | [] => [(k, v)]
  | (k2, v2) :: rest =>
    if k2 = k then (k2, v) :: rest else (k2, v2) :: alSet rest k v

/-- Map a function over the values of an association list, keeping keys (the
shape of the manager update loops, which iterate a `Map` and mutate each
entry in place). -/
def mapVals {κ α : Type} (g : α → α) (m : List (κ × α)) : List (κ × α) :=
  m.map (fun kv => (kv.1, g kv.2))

/-! Movement configuration constants from `src/shared/config.js`
(`CONFIG.movement`, `CONFIG.physics.player`, `CONFIG.network`). -/

def walkSpeed : ℚ := 5
def runSpeed : ℚ := 10
def crouchSpeed : ℚ := 5 / 2
def jumpForce : ℚ := 10
def airControl : ℚ := 3 / 10
def maxStamina : ℚ := 100
def staminaDrainRate : ℚ := 15
def staminaRegenRate : ℚ := 20

/-- Player capsule height (`CONFIG.physics.player.height = 1.7`). -/
def playerHeight : ℚ := 17 / 10

/-- `CONFIG.network.inputBufferSize = 64`, the cap on the per-player input
history kept for reconciliation. -/
def inputBufferSize : Nat := 64

/-- External collaborators consumed by the server-side player movement code
(spec §1 declares them out of scope): `Math.cos` / `Math.sin` / `Math.sqrt`,
the Rapier raycast behind `updatePlayerGrounded` (read back as
`entityData.grounded`), and the terrain-noise height oracle behind
`terrainManager.getHeightAt`.  The embedding is parametric in them; the
theorems below hold for every instantiation. -/
structure Env where
  cosQ : ℚ → ℚ
  sinQ : ℚ → ℚ
  sqrtQ : ℚ → ℚ
  groundedAt : Vec3 → Bool
  heightAt : ℚ → ℚ → ℚ

/-- Input command sent by a client (`player_input.input` payload, also the
per-entity record in `playerInputs`): axes, flags, facing yaw and the
client-assigned sequence number. -/
structure PInput where
  forward : ℚ
  right : ℚ
  jump : Bool
  run : Bool
  crouch : Bool
  yaw : ℚ
  seq : Nat
deriving DecidableEq

/-- Server-side per-player record stored in `PlayerPhysicsManager.players`
(username/appearance omitted: opaque display data never read by the embedded
logic). -/
structure Player where
  health : ℚ
  stamina : ℚ
  isRunning : Bool
  isCrouching : Bool
  yaw : ℚ
  vehicleId : Option Nat
  lastInputSeq : Nat
deriving DecidableEq

/-- Rigid-body kinematic state read and written through the physics world
(`body.translation()` / `body.linvel()` / `setPosition` / `setVelocity`). -/
structure Body where
  pos : Vec3
  vel : Vec3
deriving DecidableEq

/-- Entry of the input history kept in `inputHistory` for reconciliation.
The `Date.now()` timestamp of the source is omitted: it is external wall
clock and is never read back. -/
structure HistoryEntry where
  seq : Nat
  input : PInput
deriving DecidableEq

/-- The three per-player maps of `PlayerPhysicsManager` (`players`,
`playerInputs`, `inputHistory`) plus the player's physics body, grouped per
key.  All four maps of the source are keyed by the same
`player_${clientId}` string and are populated together by `spawnPlayer`. -/
structure Entry where
  player : Player
  input : PInput
  history : List HistoryEntry
  body : Body
deriving DecidableEq

/-- The player manager state: client id (standing for the
`player_${clientId}` key) to entry. -/
abbrev PlayerMgr := List (Nat × Entry)

/-- The source's `while (history.length > cap) history.shift()`: keep the
last `cap` elements. -/
def trimFront {α : Type} (cap : Nat) (l : List α) : List α :=
  if l.length ≤ cap then l else l.drop (l.length - cap)

/-- Embedding of `PlayerPhysicsManager.setPlayerInput` (player-physics.js
89–117): drop the message when the player is missing or in a vehicle;
otherwise store the input (last write wins, no sequence check), update the
yaw, and append to the capped input history. -/
def setPlayerInput (m : PlayerMgr) (cid : Nat) (input : PInput) : PlayerMgr :=
  match alGet m cid with
  | none => m
  | some e =>
    if e.player.vehicleId ≠ none then m
    else
      let p := { e.player with yaw := input.yaw }
      let h := trimFront inputBufferSize
        (e.history ++ [{ seq := input.seq, input := input }])
      alSet m cid { e with player := p, input := input, history := h }

/-- The source's `approach(current, target, rate)` helper (player-physics.js
236–243). -/
def approach (current target rate : ℚ) : ℚ :=
  if current < target then min (current + rate) target
  else if current > target then max (current - rate) target
  else target

/-- Embedding of `PlayerPhysicsManager.updatePlayerMovement`
(player-physics.js 137–231).  Returns the updated player record and body.
The two `setVelocity` / `setPosition` writes of the safety clamp are folded
into the final body value; `Math.cos` / `Math.sin` / `Math.sqrt`, the
groundedness raycast and the terrain height sample come from `env`. -/
def updatePlayerMovement (env : Env) (p : Player) (input : PInput) (b : Body)
    (dt : ℚ) : Player × Body :=
  let isGrounded := env.groundedAt b.pos
  let pos := b.pos
  let vel := b.vel
  let cosY := env.cosQ p.yaw
  let sinY := env.sinQ p.yaw
  let forwardX := -sinY
  let forwardZ := -cosY
  let rightX := cosY
  let rightZ := -sinY
  let moveX0 := input.forward * forwardX + input.right * rightX
  let moveZ0 := input.forward * forwardZ + input.right * rightZ
  let moveLen := env.sqrtQ (moveX0 * moveX0 + moveZ0 * moveZ0)
  let moveX := if moveLen > 1 then moveX0 / moveLen else moveX0
  let moveZ := if moveLen > 1 then moveZ0 / moveLen else moveZ0
  let isRunning := input.run && decide (p.stamina > 0)
  let isCrouching := input.crouch
  let targetSpeed :=
    if isCrouching then crouchSpeed
    else if isRunning then runSpeed
    else walkSpeed
  let targetVelX := moveX * targetSpeed
  let targetVelZ := moveZ * targetSpeed
  let accel := if isGrounded then 20 else 20 * airControl
  let newVelX := approach vel.x targetVelX (accel * dt)
  let newVelZ := approach vel.z targetVelZ (accel * dt)
  let newVelY :=
    if input.jump && isGrounded && !isCrouching then jumpForce else vel.y
  let stamina2 :=
    if isRunning && decide (moveLen > 0) then
      max 0 (p.stamina - staminaDrainRate * dt)
    else if !isRunning then
      min maxStamina (p.stamina + staminaRegenRate * dt)
    else p.stamina
  let groundHeight := env.heightAt pos.x pos.z
  let minY := groundHeight + playerHeight / 2
  let clamped := decide (pos.y < minY - 1)
  let finalPos := if clamped then { x := pos.x, y := minY, z := pos.z } else pos
  let finalVel : Vec3 :=
    if clamped then { x := newVelX, y := 0, z := newVelZ }
    else { x := newVelX, y := newVelY, z := newVelZ }
  ({ p with isRunning := isRunning, isCrouching := isCrouching,
            stamina := stamina2, lastInputSeq := input.seq },
   { pos := finalPos, vel := finalVel })

/-- One iteration of the `PlayerPhysicsManager.update` loop (player-physics.js
122–132): players in a vehicle are skipped, the rest are advanced through
`updatePlayerMovement` against their stored input.  (In the source the loop
also skips a player whose `playerInputs` entry is missing; after
`spawnPlayer` the entry always exists, so the model keeps it total.) -/
def entryStep (env : Env) (dt : ℚ) (e : Entry) : Entry :=
  if e.player.vehicleId ≠ none then e
  else
    let r := updatePlayerMovement env e.player e.input e.body dt
    { e with player := r.1, body := r.2 }

/-- Embedding of `PlayerPhysicsManager.update` (one server tick of player
physics). -/
def pmUpdate (env : Env) (dt : ℚ) (m : PlayerMgr) : PlayerMgr :=
  mapVals (entryStep env dt) m

/-- Embedding of `PlayerPhysicsManager.getPlayerPositions` (player-physics.js
398–413): the (x, z) positions of all players not in a vehicle, in map
order. -/
structure PlayerPos where
  x : ℚ
  z : ℚ
deriving DecidableEq

def getPlayerPositions (m : PlayerMgr) : List PlayerPos :=
  m.filterMap (fun ke =>
    if ke.2.player.vehicleId ≠ none then none
    else some { x := ke.2.body.pos.x, z := ke.2.body.pos.z })

/-- The externally observable events that drive the player manager: delivery
of a `player_input` message (the `handlePlayerInput` path) and a server
tick. -/
inductive PEvent where
  | deliver (cid : Nat) (input : PInput)
  | tick (dt : ℚ)
deriving DecidableEq

def pStep (env : Env) (m : PlayerMgr) : PEvent → PlayerMgr
  | .deliver cid input => setPlayerInput m cid input
  | .tick dt => pmUpdate env dt m

def pRun (env : Env) (m : PlayerMgr) : List PEvent → PlayerMgr
  | [] => m
  | e :: es => pRun env (pStep env m e) es

/-- The `lastProcessedInputSeq` the server reports for client `cid`
(`myPlayerState?.lastInputSeq || 0` in `sendWorldSnapshot`): 0 when the
player is missing. -/
def lastSeqOf (m : PlayerMgr) (cid : Nat) : Nat :=
  match alGet m cid with
  | some e => e.player.lastInputSeq
  | none => 0

/-- Sequence number of the currently stored (most recently delivered) input
of client `cid`; 0 when the player is missing. -/
def storedSeqOf (m : PlayerMgr) (cid : Nat) : Nat :=
  match alGet m cid with
  | some e => e.input.seq
  | none => 0

/-- The value of `lastProcessedInputSeq` for `cid` observed before the run
and after every event of the run. -/
def lastSeqTrace (env : Env) (cid : Nat) (m : PlayerMgr) :
    List PEvent → List Nat
  | [] => [lastSeqOf m cid]
  | e :: es => lastSeqOf m cid :: lastSeqTrace env cid (pStep env m e) es

/-- Sequence numbers of the inputs delivered to client `cid` during a run,
in delivery order. -/
def deliverSeqs (cid : Nat) : List PEvent → List Nat
  | [] => []
  | .deliver c i :: es =>
    if c = cid then i.seq :: deliverSeqs cid es else deliverSeqs cid es
  | .tick _ :: es => deliverSeqs cid es

/-! Terrain chunk streaming: `TerrainPhysicsManager` (terrain-physics.js).
World constants from `CONFIG.world`. -/

def chunkSize : ℚ := 200

/-- `CONFIG.world.serverChunkRadius = 3` (Chebyshev chunk radius). -/
def serverChunkRadius : Int := 3

/-- `this.maxChunksPerFrame = 2`: bounded load/unload work per call. -/
def maxChunksPerFrame : Nat := 2

/-- Chunk key `(chunkX, chunkZ)` (the source's string key
`${chunkX},${chunkZ}`). -/
abbrev ChunkKey := Int × Int

/-- Streaming manager state: `loadedChunks` key set (the per-chunk heightmap
and building data are generated by the out-of-scope noise oracle and never
re-read by the streaming logic), the mirror of the physics world's
`terrainChunks` collider map, and the two work queues.  The parallel
`buildings` map of the source holds the building collider ids created and
removed together with each chunk and is keyed identically to
`loadedChunks`. -/
structure TState where
  loaded : List ChunkKey
  physChunks : List ChunkKey
  loadQueue : List ChunkKey
  unloadQueue : List ChunkKey
deriving DecidableEq

/-- `Math.floor(worldCoord / this.chunkSize)`. -/
def chunkCoord (a : ℚ) : Int := Int.floor (a / chunkSize)

/-- The offsets `-r, …, r` of the double loop `for dx … for dz`. -/
def radiusOffsets (r : Int) : List Int :=
  (List.range (2 * r.toNat + 1)).map (fun i => (i : Int) - r)

/-- Chebyshev neighborhood of one tracked position, in the source's loop
order (`dx` outer, `dz` inner). -/
def neighborhood (p : PlayerPos) : List ChunkKey :=
  let cx := chunkCoord p.x
  let cz := chunkCoord p.z
  (radiusOffsets serverChunkRadius).flatMap (fun dx =>
    (radiusOffsets serverChunkRadius).map (fun dz => (cx + dx, cz + dz)))

/-- JS `Set.add`: append if absent. -/
def insertIfAbsent (l : List ChunkKey) (k : ChunkKey) : List ChunkKey :=
  if k ∈ l then l else l ++ [k]

/-- The `requiredChunks` set of `updateForPlayers` (terrain-physics.js
35–52): union of the neighborhoods of all tracked positions, in insertion
order. -/
def requiredChunks (ps : List PlayerPos) : List ChunkKey :=
  ps.foldl (fun acc p => (neighborhood p).foldl insertIfAbsent acc) []

/-- Embedding of `loadChunk` (terrain-physics.js 106–148): no-op when the
chunk is already loaded; otherwise generate the chunk (heightmap and
building descriptors come from the noise oracle), create the terrain and
building colliders in the physics world, and record the chunk. -/
def loadChunk (st : TState) (k : ChunkKey) : TState :=
  if k ∈ st.loaded then st
  else
    { st with loaded := st.loaded ++ [k],
              physChunks := insertIfAbsent st.physChunks k }

/-- Embedding of `unloadChunk` (terrain-physics.js 153–170): no-op when not
loaded; otherwise remove the terrain collider and the chunk's building
colliders and drop the records. -/
def unloadChunk (st : TState) (k : ChunkKey) : TState :=
  if k ∈ st.loaded then
    { st with loaded := st.loaded.filter (fun k2 => k2 ≠ k),
              physChunks := st.physChunks.filter (fun k2 => k2 ≠ k) }
  else st

/-- Embedding of `processLoadQueue` (terrain-physics.js 76–86): pop queue
entries, loading the not-yet-loaded ones, until the queue is empty or
`maxChunksPerFrame` chunks were loaded this call; already-loaded entries are
popped without counting. -/
def drainLoad : List ChunkKey → Nat → TState → TState
  | [], _, st => { st with loadQueue := [] }
  | k :: rest, count, st =>
    if maxChunksPerFrame ≤ count then { st with loadQueue := k :: rest }
    else if k ∈ st.loaded then drainLoad rest count st
    else drainLoad rest (count + 1) (loadChunk st k)

/-- Embedding of `processUnloadQueue` (terrain-physics.js 91–101): pop queue
entries, unloading those still loaded — the drain-time check tests loadedness
only, not membership in the current required set — until the queue is empty
or `maxChunksPerFrame` chunks were unloaded. -/
def drainUnload : List ChunkKey → Nat → TState → TState
  | [], _, st => { st with unloadQueue := [] }
  | k :: rest, count, st =>
    if maxChunksPerFrame ≤ count then { st with unloadQueue := k :: rest }
    else if k ∈ st.loaded then drainUnload rest (count + 1) (unloadChunk st k)
    else drainUnload rest count st

/-- The load-enqueue loop of `updateForPlayers`: push every required chunk
that is neither loaded nor already queued. -/
def enqueueLoads (req : List ChunkKey) (st : TState) : List ChunkKey :=
  req.foldl (fun q k => if k ∈ st.loaded ∨ k ∈ q then q else q ++ [k])
    st.loadQueue

/-- The unload-enqueue loop of `updateForPlayers`: push every loaded chunk
that is neither required nor already queued. -/
def enqueueUnloads (req : List ChunkKey) (st : TState) : List ChunkKey :=
  st.loaded.foldl (fun q k => if k ∈ req ∨ k ∈ q then q else q ++ [k])
    st.unloadQueue

/-- Embedding of `TerrainPhysicsManager.updateForPlayers` (terrain-physics.js
35–71): compute the required set, enqueue loads and unloads, then drain both
queues at the bounded rate. -/
def updateForPlayers (ps : List PlayerPos) (st : TState) : TState :=
  let req := requiredChunks ps
  let st1 := { st with loadQueue := enqueueLoads req st,
                       unloadQueue := enqueueUnloads req st }
  let st2 := drainLoad st1.loadQueue 0 st1
  drainUnload st2.unloadQueue 0 st2

/-- Embedding of `forceLoadAroundPosition` (terrain-physics.js 175–184):
immediate loads around a position, bypassing the queues (used by the spawn
path). -/
def forceLoadAroundPosition (x z : ℚ) (radius : Int) (st : TState) : TState :=
  let cx := chunkCoord x
  let cz := chunkCoord z
  (radiusOffsets radius).foldl (fun s dx =>
    (radiusOffsets radius).foldl (fun s2 dz =>
      loadChunk s2 (cx + dx, cz + dz)) s) st

/-! Spawn-point search: `TerrainPhysicsManager.findSpawnPoint`
(terrain-physics.js 217–252). -/

/-- The terrain noise oracle (spec §1/§6: out of scope, consumed as pure
functions `height(x,z)` and `cityInfluence(x,z)`) behind `getHeightAt` and
`getCityInfluenceAt`. -/
structure NoiseOracle where
  heightAt : ℚ → ℚ → ℚ
  cityAt : ℚ → ℚ → ℚ

/-- `searchRadius = 5000` of `findSpawnPoint`. -/
def searchRadius : ℚ := 5000

/-- `attempts = 50` of `findSpawnPoint`. -/
def spawnAttempts : Nat := 50

/-- The x coordinate of attempt `i`: `(Math.random() - 0.5) * searchRadius`,
with the `Math.random()` stream modelled as an oracle `rand` consumed two
values per attempt. -/
def candX (rand : Nat → ℚ) (i : Nat) : ℚ := (rand (2 * i) - 1/2) * searchRadius

/-- The z coordinate of attempt `i`. -/
def candZ (rand : Nat → ℚ) (i : Nat) : ℚ :=
  (rand (2 * i + 1) - 1/2) * searchRadius

/-- The flatness score of a candidate: sum of the absolute height deviations
at ±5 (`sampleDist = 5`) in each cardinal horizontal direction from the
center sample. -/
def flatnessAt (o : NoiseOracle) (x z : ℚ) : ℚ :=
  let y := o.heightAt x z
  |o.heightAt (x + 5) z - y| + |o.heightAt (x - 5) z - y| +
  |o.heightAt x (z + 5) - y| + |o.heightAt x (z - 5) - y|

/-- The point returned for attempt `i` (`{x, y: y + 2, z}`). -/
def spawnCand (o : NoiseOracle) (rand : Nat → ℚ) (i : Nat) : Vec3 :=
  ⟨candX rand i, o.heightAt (candX rand i) (candZ rand i) + 2, candZ rand i⟩

/-- The attempt loop of `findSpawnPoint`: a candidate with city influence
above 0.3 is returned immediately; otherwise the candidate replaces the best
point when its flatness is strictly below the best flatness so far (`none`
stands for the initial `Infinity`). -/
def findSpawnLoop (o : NoiseOracle) (rand : Nat → ℚ) :
    Nat → Nat → Vec3 → Option ℚ → Vec3
  | 0, _, best, _ => best
  | n + 1, i, best, bestFlat =>
    let x := candX rand i
    let z := candZ rand i
    if o.cityAt x z > 3/10 then ⟨x, o.heightAt x z + 2, z⟩
    else
      let flat := flatnessAt o x z
      let better := match bestFlat with
        | none => true
        | some bf => decide (flat < bf)
      if better then
        findSpawnLoop o rand n (i + 1) ⟨x, o.heightAt x z + 2, z⟩ (some flat)
      else findSpawnLoop o rand n (i + 1) best bestFlat

/-- Embedding of `findSpawnPoint`: 50 attempts starting from the zero best
point and infinite best flatness. -/
def findSpawnPoint (o : NoiseOracle) (rand : Nat → ℚ) : Vec3 :=
  findSpawnLoop o rand spawnAttempts 0 ⟨0, 0, 0⟩ none

/-! Client-side reconciliation: `PlayerController.updateLocalPlayerFromServer`
(player-controller.js 279–310). -/

/-- The per-player snapshot record consumed by the client reconciliation
(the fields of `state` read by `updateLocalPlayerFromServer`). -/
structure Snapshot where
  position : Vec3
  velocity : Vec3
  health : ℚ
  stamina : ℚ
  grounded : Bool
  inVehicle : Bool
  vehicleId : Option Nat
  lastInputSeq : Nat
deriving DecidableEq

/-- Local player state of `PlayerController`: rendered position/velocity and
the predicted baseline, plus the status fields copied from snapshots. -/
structure LocalState where
  position : Vec3
  velocity : Vec3
  predictedPosition : Vec3
  predictedVelocity : Vec3
  health : ℚ
  stamina : ℚ
  isGrounded : Bool
  inVehicle : Bool
  vehicleId : Option Nat
deriving DecidableEq

/-- Embedding of `updateLocalPlayerFromServer`: copy the status fields;
three-tier correction on the prediction error (the source compares the
Euclidean error against 2.0 and 0.1, embedded as the squared comparisons
against 4 and 1/100): hard snap above 2, a 0.3/0.1 lerp of rendered and
predicted positions in the middle band, nothing below 0.1; then replay every
pending input record whose `seq` exceeds the snapshot's acknowledged
sequence.  The pending records are the flat `{...input, timestamp}` objects
pushed by `NetworkClient.sendPlayerInput` (modelled as `PInput`); the replay
body — the source calls `this.applyInput(inputData.input, 1/60)` on such a
record — is the parameter `f`, and the theorems below hold for every `f`. -/
def updateLocalPlayerFromServer (f : PInput → LocalState → LocalState)
    (pending : List PInput) (st : LocalState) (snap : Snapshot) : LocalState :=
  let st1 := { st with health := snap.health, stamina := snap.stamina,
                       isGrounded := snap.grounded,
                       inVehicle := snap.inVehicle,
                       vehicleId := snap.vehicleId }
  let errSq := distSq st1.predictedPosition snap.position
  let st2 :=
    if errSq > 4 then
      { st1 with position := snap.position,
                 predictedPosition := snap.position,
                 velocity := snap.velocity,
                 predictedVelocity := snap.velocity }
    else if errSq > 1/100 then
      { st1 with position := lerpVec st1.position snap.position (3/10),
                 predictedPosition :=
                   lerpVec st1.predictedPosition snap.position (1/10) }
    else st1
  pending.foldl (fun s d => if snap.lastInputSeq < d.seq then f d s else s) st2

/-! Remote-entity interpolation: `PlayerController.updateOtherPlayerFromServer`
and `smoothRemotePlayers` (player-controller.js 315–342 and 376–399). -/

/-- `this.remoteSmoothingWindow = (CONFIG.networkInterpolationDelay || 100) /
1000` — the config key is absent, so the window is 100 ms = 1/10 s. -/
def remoteSmoothingWindow : ℚ := 1/10

/-- The smoothing descriptor created on receipt of a remote update. -/
structure Smoothing where
  fromPos : Vec3
  toPos : Vec3
  velocity : Vec3
  start : ℚ
  duration : ℚ
deriving DecidableEq

/-- Remote player render state: the rendered mesh position, the active
smoothing descriptor, and the yaw target. -/
structure RemotePlayer where
  meshPos : Vec3
  smoothing : Option Smoothing
  targetYaw : Option ℚ
deriving DecidableEq

/-- Embedding of `updateOtherPlayerFromServer`: build a fresh smoothing
descriptor from the current rendered position to the received target (with
the received velocity, the local receipt time and the configured window as
duration); the rendered mesh position itself is not touched. -/
def updateOtherPlayerFromServer (rp : RemotePlayer)
    (targetPos targetVel : Vec3) (now : ℚ) (yaw : Option ℚ) : RemotePlayer :=
  { rp with
    smoothing := some
      { fromPos := rp.meshPos, toPos := targetPos, velocity := targetVel,
        start := now, duration := remoteSmoothingWindow * 1000 },
    targetYaw := match yaw with | some y => some y | none => rp.targetYaw }

/-- Embedding of the position computation of `smoothRemotePlayers`:
`t = min(1, (now - start)/duration)`, smoothstep easing, a velocity
extrapolation of the target scaled by `remoteSmoothingWindow * (1 - eased)`,
and a lerp from `from` to the blended target by `eased`. -/
def smoothedPosition (s : Smoothing) (now : ℚ) : Vec3 :=
  let t := min 1 ((now - s.start) / s.duration)
  let eased := t * t * (3 - 2 * t)
  let blended :=
    vadd s.toPos (vscale s.velocity (remoteSmoothingWindow * (1 - eased)))
  lerpVec s.fromPos blended eased

/-- The rendered-position formula in the words of the spec (§4.7 / claim
C8): `t = clamp((now - start)/duration, 0, 1)`, `eased = t²(3-2t)`, blend
from `from` toward `to + velocity * delayWindow * (1-eased)` by `eased`.
Stated separately so the code formula can be proved to refine it. -/
def specRenderedPosition (s : Smoothing) (now : ℚ) (delayWindow : ℚ) : Vec3 :=
  let t := max 0 (min 1 ((now - s.start) / s.duration))
  let eased := t * t * (3 - 2 * t)
  lerpVec s.fromPos
    (vadd s.toPos (vscale s.velocity (delayWindow * (1 - eased)))) eased

/-! Physics world bookkeeping: `PhysicsWorld` (physics-world.js).  The
engine world stands for the Rapier `World`: handles created by
`createRigidBody` / `createCollider` stay in it until explicitly removed.
Shape, mass and friction parameters passed to the collider descriptors are
engine-side configuration never read back by the embedded logic; the
collision group word is kept since the source computes it. -/

structure Quat where
  x : ℚ
  y : ℚ
  z : ℚ
  w : ℚ
deriving DecidableEq

structure RigidBody where
  handle : Nat
  pos : Vec3
  rot : Quat
deriving DecidableEq

structure Collider where
  handle : Nat
  parent : Option Nat
  groups : Nat
deriving DecidableEq

/-- The Rapier world: live bodies and colliders, plus a fresh-handle
counter. -/
structure EngineWorld where
  bodies : List RigidBody
  colliders : List Collider
  fresh : Nat
deriving DecidableEq

/-- `makeCollisionGroups` (physics-world.js 530–532):
`(membership << 16) | filter`; for the 16-bit group values of the source
this equals `membership * 2^16 + filter`. -/
def makeCollisionGroups (membership filter : Nat) : Nat :=
  membership * 65536 + filter

/-- `COLLISION_GROUPS.PLAYER = 0x0002`. -/
def playerGroup : Nat := 2
/-- `COLLISION_MASKS.PLAYER = 0x000F`. -/
def playerMask : Nat := 15
/-- `COLLISION_GROUPS.VEHICLE = 0x0004`. -/
def vehicleGroup : Nat := 4
/-- `COLLISION_MASKS.VEHICLE = 0x000F`. -/
def vehicleMask : Nat := 15

inductive VehicleType where
  | car
  | truck
  | motorcycle
  | tank
  | helicopter
  | hovercraft
deriving DecidableEq

/-- Wheel state record of `initWheelStates`. -/
structure Wheel where
  position : Vec3
  steering : Bool
  powered : Bool
  suspensionLength : ℚ
  suspensionVelocity : ℚ
  groundContact : Bool
  rotation : ℚ
  steerAngle : ℚ
deriving DecidableEq

/-- Entity bookkeeping stored in `entityData`. -/
inductive EntityData where
  | playerData (ownerId : Nat) (grounded : Bool) (groundNormal : Vec3)
  | vehicleData (vehicleType : VehicleType) (ownerId driverId : Option Nat)
      (wheelStates : Option (List Wheel))
  | buildingData (position : Vec3)
deriving DecidableEq

/-- The wheeled-vehicle configuration fields read by `createVehicleBody` and
`initWheelStates` (`CONFIG.physics.vehicle.{car,truck,motorcycle}`). -/
structure WheeledConfig where
  chassisX : ℚ
  chassisY : ℚ
  chassisZ : ℚ
  wheelRadius : ℚ
  suspensionRestLength : ℚ
deriving DecidableEq

def carConfig : WheeledConfig := ⟨2, 4/5, 9/2, 2/5, 3/10⟩
def truckConfig : WheeledConfig := ⟨5/2, 6/5, 7, 3/5, 2/5⟩
def motorcycleConfig : WheeledConfig := ⟨1/2, 3/5, 2, 7/20, 1/5⟩

/-- `CONFIG.physics.vehicle.helicopter.bodySize.y = 2.0`. -/
def helicopterBodySizeY : ℚ := 2
/-- `CONFIG.physics.vehicle.tank.chassisSize.y = 1.5`. -/
def tankChassisY : ℚ := 3/2
/-- `CONFIG.physics.vehicle.hovercraft.bodySize.y = 1.0`. -/
def hovercraftBodySizeY : ℚ := 1
/-- `CONFIG.physics.vehicle.hovercraft.hoverHeight = 0.5`. -/
def hovercraftHoverHeight : ℚ := 1/2

def wheeledConfigOf : VehicleType → Option WheeledConfig
  | .car => some carConfig
  | .truck => some truckConfig
  | .motorcycle => some motorcycleConfig
  | _ => none

/-- Embedding of `initWheelStates` (physics-world.js 230–255). -/
def initWheelStates (vt : VehicleType) (c : WheeledConfig) : List Wheel :=
  let wheelPositions : List Vec3 :=
    if vt = .motorcycle then
      [⟨0, -c.chassisY / 2, c.chassisZ / 2 - c.wheelRadius⟩,
       ⟨0, -c.chassisY / 2, -c.chassisZ / 2 + c.wheelRadius⟩]
    else
      [⟨-c.chassisX / 2 + 1/10, -c.chassisY / 2,
        c.chassisZ / 2 - c.wheelRadius * (3/2)⟩,
       ⟨c.chassisX / 2 - 1/10, -c.chassisY / 2,
        c.chassisZ / 2 - c.wheelRadius * (3/2)⟩,
       ⟨-c.chassisX / 2 + 1/10, -c.chassisY / 2,
        -c.chassisZ / 2 + c.wheelRadius * (3/2)⟩,
       ⟨c.chassisX / 2 - 1/10, -c.chassisY / 2,
        -c.chassisZ / 2 + c.wheelRadius * (3/2)⟩]
  wheelPositions.mapIdx (fun i pos =>
    { position := pos,
      steering := decide (i < (if vt = .motorcycle then 1 else 2)),
      powered := decide (vt = .motorcycle) || decide (2 ≤ i),
      suspensionLength := c.suspensionRestLength,
      suspensionVelocity := 0,
      groundContact := false,
      rotation := 0,
      steerAngle := 0 })

/-- The `PhysicsWorld` wrapper: the engine world plus the entity-id-indexed
maps `bodies`, `colliders` and `entityData` (values are engine handles). -/
structure PWorld where
  engine : EngineWorld
  bodies : List (Nat × Nat)
  colliders : List (Nat × List Nat)
  entityData : List (Nat × EntityData)
deriving DecidableEq

/-- Embedding of `createPlayerBody` (physics-world.js 87–119): create a new
rigid body (translated up by half the capsule height) and its collider in
the engine, then `Map.set` all three tracking maps — the maps are
overwritten, nothing is removed from the engine. -/
def createPlayerBody (w : PWorld) (entityId : Nat) (position : Vec3)
    (ownerId : Nat) : PWorld :=
  let bh := w.engine.fresh
  let body : RigidBody :=
    { handle := bh,
      pos := { x := position.x, y := position.y + playerHeight / 2,
               z := position.z },
      rot := ⟨0, 0, 0, 1⟩ }
  let ch := bh + 1
  let col : Collider :=
    { handle := ch, parent := some bh,
      groups := makeCollisionGroups playerGroup playerMask }
  { engine := { bodies := w.engine.bodies ++ [body],
                colliders := w.engine.colliders ++ [col],
                fresh := ch + 1 },
    bodies := alSet w.bodies entityId bh,
    colliders := alSet w.colliders entityId [ch],
    entityData := alSet w.entityData entityId
      (.playerData ownerId false ⟨0, 1, 0⟩) }

/-- The per-archetype vertical placement of `createVehicleBody`'s body
descriptor (physics-world.js 124–210). -/
def vehicleBodyY (vt : VehicleType) (y : ℚ) : ℚ :=
  match vt with
  | .helicopter => y + helicopterBodySizeY
  | .tank => y + tankChassisY
  | .hovercraft => y + hovercraftHoverHeight + hovercraftBodySizeY / 2
  | .car => y + carConfig.wheelRadius + carConfig.suspensionRestLength +
      carConfig.chassisY / 2
  | .truck => y + truckConfig.wheelRadius + truckConfig.suspensionRestLength +
      truckConfig.chassisY / 2
  | .motorcycle => y + motorcycleConfig.wheelRadius +
      motorcycleConfig.suspensionRestLength + motorcycleConfig.chassisY / 2

/-- Embedding of `createVehicleBody` (physics-world.js 124–225): every
archetype creates one rigid body (at its archetype-specific height) and one
cuboid chassis collider in the engine, then overwrites the three tracking
maps; wheeled types get initialized wheel states.  (The unknown-type early
return cannot occur over the closed `VehicleType` enum.) -/
def createVehicleBody (w : PWorld) (entityId : Nat) (vt : VehicleType)
    (position : Vec3) (rotation : Quat) : PWorld :=
  let bh := w.engine.fresh
  let body : RigidBody :=
    { handle := bh,
      pos := { x := position.x, y := vehicleBodyY vt position.y,
               z := position.z },
      rot := rotation }
  let ch := bh + 1
  let col : Collider :=
    { handle := ch, parent := some bh,
      groups := makeCollisionGroups vehicleGroup vehicleMask }
  { engine := { bodies := w.engine.bodies ++ [body],
                colliders := w.engine.colliders ++ [col],
                fresh := ch + 1 },
    bodies := alSet w.bodies entityId bh,
    colliders := alSet w.colliders entityId [ch],
    entityData := alSet w.entityData entityId
      (.vehicleData vt none none
        ((wheeledConfigOf vt).map (initWheelStates vt))) }

/-! Vehicle occupancy: `VehiclePhysicsManager.enterVehicle`
(vehicle-physics.js / `src/unnamed/part_006` 80–99). -/

/-- Server-side per-vehicle record of `VehiclePhysicsManager.vehicles`. -/
structure Vehicle where
  vehicleType : VehicleType
  driverId : Option Nat
  engineRunning : Bool
  health : ℚ
  fuel : ℚ
deriving DecidableEq

/-- Vehicle manager state: the `vehicles` map plus the mirror of
`physicsWorld.entityData[id].driverId` that `enterVehicle` / `exitVehicle`
keep in sync. -/
structure VMState where
  vehicles : List (Nat × Vehicle)
  entityDriver : List (Nat × Option Nat)
deriving DecidableEq

/-- Embedding of `enterVehicle`: fails on a missing vehicle or an occupied
driver slot (leaving the state untouched); otherwise records the driver,
starts the engine and mirrors the driver id into the entity data. -/
def enterVehicle (s : VMState) (entityId playerId : Nat) : Bool × VMState :=
  match alGet s.vehicles entityId with
  | none => (false, s)
  | some v =>
    if v.driverId ≠ none then (false, s)
    else
      let v2 := { v with driverId := some playerId, engineRunning := true }
      let ed :=
        match alGet s.entityDriver entityId with
        | none => s.entityDriver
        | some _ => alSet s.entityDriver entityId (some playerId)
      (true, { vehicles := alSet s.vehicles entityId v2, entityDriver := ed })

/-! Server tick loop: `PhysicsServer.tick`, `processChunkRequests` and
`sendWorldSnapshot` (terrain-physics.js 790–873). -/

/-- Per-connection state kept in `this.clients`: the client id, whether the
handshake moved the connection to the `playing` state, and the pending
chunk-request set (insertion-ordered). -/
structure ClientConn where
  clientId : Nat
  playing : Bool
  chunkRequests : List ChunkKey
deriving DecidableEq

/-- The server state threaded through one tick.  The vehicle manager's
per-type force models and the engine's `world.step` are out of scope (spec
§1); the tick takes the vehicle update as an opaque function and counts the
`step` calls. -/
structure ServerState where
  clients : List ClientConn
  pmgr : PlayerMgr
  vstate : VMState
  terrain : TState
  physicsStepped : Nat
  tickNumber : Nat

/-- The observable phases of one tick, in execution order, including one
`chunkData` event per served chunk request and one `snapshot` event per
recipient (carrying that recipient's own acknowledged input sequence). -/
inductive TickPhase where
  | gatherPositions
  | terrainUpdate
  | playerUpdate
  | vehicleUpdate
  | physicsStep
  | chunkData (cid : Nat) (k : ChunkKey)
  | snapshot (cid : Nat) (yourLastInputSeq : Nat)
deriving DecidableEq

/-- The fields of a `getPlayerState` result that the snapshot path reads
(player-physics.js 343–381): the vehicle-attached variant carries no
kinematic position. -/
structure PlayerStateNet where
  clientId : Nat
  inVehicle : Bool
  vehicleId : Option Nat
  position : Option Vec3
  lastInputSeq : Nat
deriving DecidableEq

def getPlayerState (cid : Nat) (e : Entry) : PlayerStateNet :=
  if e.player.vehicleId ≠ none then
    { clientId := cid, inVehicle := true, vehicleId := e.player.vehicleId,
      position := none, lastInputSeq := e.player.lastInputSeq }
  else
    { clientId := cid, inVehicle := false, vehicleId := none,
      position := some e.body.pos, lastInputSeq := e.player.lastInputSeq }

/-- `getAllPlayerStates`: one state per player, in map order. -/
def getAllPlayerStates (m : PlayerMgr) : List PlayerStateNet :=
  m.map (fun ke => getPlayerState ke.1 ke.2)

/-- The `yourLastInputSeq` a snapshot carries for client `cid`:
`playerStates.find(p => p.clientId === clientId)?.lastInputSeq || 0`. -/
def yourLastSeq (states : List PlayerStateNet) (cid : Nat) : Nat :=
  match states.find? (fun p => p.clientId == cid) with
  | some p => p.lastInputSeq
  | none => 0

/-- `processChunkRequests`'s per-client bound (`maxChunksPerTick = 2`). -/
def maxChunksPerTick : Nat := 2

/-- One client's slice of `processChunkRequests` (terrain-physics.js
824–844): serve the first `maxChunksPerTick` queued requests (deleting them
from the set) and emit one `chunk_data` event each.  The served payload is
generated from the noise oracle and carried here by its key. -/
def serveClient (c : ClientConn) : ClientConn × List TickPhase :=
  ({ c with chunkRequests := c.chunkRequests.drop maxChunksPerTick },
   (c.chunkRequests.take maxChunksPerTick).map
     (fun k => TickPhase.chunkData c.clientId k))

/-- The snapshot fan-out of `sendWorldSnapshot` (terrain-physics.js
849–873): one event per `playing` client, with that client's own
acknowledged sequence number. -/
def snapshotEvents (clients : List ClientConn)
    (states : List PlayerStateNet) : List TickPhase :=
  clients.filterMap (fun c =>
    if c.playing then
      some (.snapshot c.clientId (yourLastSeq states c.clientId))
    else none)

/-- Embedding of `PhysicsServer.tick` (terrain-physics.js 790–819): gather
the non-vehicle player positions, advance chunk streaming against them,
advance player physics, advance vehicle physics, step the engine once,
service the bounded chunk requests, then send one snapshot per playing
client — in that order, recorded in the emitted phase trace. -/
def tick (env : Env) (vehUpdate : VMState → VMState) (dt : ℚ)
    (st : ServerState) : ServerState × List TickPhase :=
  let positions := getPlayerPositions st.pmgr
  let terrain2 := updateForPlayers positions st.terrain
  let pmgr2 := pmUpdate env dt st.pmgr
  let vstate2 := vehUpdate st.vstate
  let served := st.clients.map serveClient
  let clients2 := served.map Prod.fst
  let chunkEvents := (served.map Prod.snd).flatten
  let snaps := snapshotEvents clients2 (getAllPlayerStates pmgr2)
  ({ clients := clients2, pmgr := pmgr2, vstate := vstate2,
     terrain := terrain2, physicsStepped := st.physicsStepped + 1,
     tickNumber := st.tickNumber + 1 },
   [.gatherPositions, .terrainUpdate, .playerUpdate, .vehicleUpdate,
    .physicsStep] ++ chunkEvents ++ snaps)

/-! Concrete fixtures used by counterexamples and witnesses.  The math and
physics oracles are instantiated with arbitrary functions; no statement
below depends on their values. -/

def envFix : Env :=
  { cosQ := fun _ => 0, sinQ := fun _ => 0, sqrtQ := fun _ => 0,
    groundedAt := fun _ => true, heightAt := fun _ _ => 0 }

/-- Like `envFix` but the groundedness raycast reports airborne. -/
def envAir : Env :=
  { cosQ := fun _ => 0, sinQ := fun _ => 0, sqrtQ := fun _ => 0,
    groundedAt := fun _ => false, heightAt := fun _ _ => 0 }

/-- Neutral input carrying sequence number `s`. -/
def inFix (s : Nat) : PInput :=
  { forward := 0, right := 0, jump := false, run := false, crouch := false,
    yaw := 0, seq := s }

/-- A jump request (sequence number 7). -/
def inJump : PInput :=
  { forward := 0, right := 0, jump := true, run := false, crouch := false,
    yaw := 0, seq := 7 }

def playerFix : Player :=
  { health := 100, stamina := 100, isRunning := false, isCrouching := false,
    yaw := 0, vehicleId := none, lastInputSeq := 0 }

def bodyFix : Body := { pos := ⟨0, 2, 0⟩, vel := ⟨0, 0, 0⟩ }

def entryFix : Entry :=
  { player := playerFix, input := inFix 0, history := [], body := bodyFix }

/-- Manager with a single freshly spawned player for client 1. -/
def mgrFix : PlayerMgr := [(1, entryFix)]

/-- Entry for a player currently driving vehicle 5. -/
def entryVeh : Entry :=
  { player := { playerFix with vehicleId := some 5 }, input := inFix 0,
    history := [], body := bodyFix }

/-- Manager with a single in-vehicle player for client 2. -/
def mgrVeh : PlayerMgr := [(2, entryVeh)]

/-- Empty streaming manager state. -/
def tEmpty : TState :=
  { loaded := [], physChunks := [], loadQueue := [], unloadQueue := [] }

/-- Chunks force-loaded around the origin (the spawn path
`forceLoadAroundPosition`, here with the server radius). -/
def tEx0 : TState := forceLoadAroundPosition 0 0 3 tEmpty

/-- One streaming update after the tracked player moved far away (chunk
(10, 0)): every origin chunk is queued for unload, two are unloaded. -/
def tEx1 : TState := updateForPlayers [⟨2000, 0⟩] tEx0

/-- The next update after the player moved back to the origin: the origin
chunks re-enter the required set while still queued for unload. -/
def tEx2 : TState := updateForPlayers [⟨0, 0⟩] tEx1

/-- Small streaming state with one loaded chunk and empty queues. -/
def tWit : TState :=
  { loaded := [(0, 0)], physChunks := [(0, 0)], loadQueue := [],
    unloadQueue := [] }

/-- Oracle with steep linear terrain and no city anywhere. -/
def oSteep : NoiseOracle :=
  { heightAt := fun x _ => 200 * x, cityAt := fun _ _ => 0 }

/-- Oracle with flat terrain and no city anywhere. -/
def oFlat : NoiseOracle :=
  { heightAt := fun _ _ => 7, cityAt := fun _ _ => 0 }

/-- Local client state whose prediction has been diverged from the
authoritative position by a one-unit offset on x (middle correction band). -/
def lsC3 : LocalState :=
  { position := ⟨1, 0, 0⟩, velocity := ⟨0, 0, 0⟩,
    predictedPosition := ⟨1, 0, 0⟩, predictedVelocity := ⟨0, 0, 0⟩,
    health := 100, stamina := 100, isGrounded := true, inVehicle := false,
    vehicleId := none }

/-- Like `lsC3` but diverged by ten units (snap band). -/
def lsC3Far : LocalState :=
  { lsC3 with position := ⟨10, 0, 0⟩, predictedPosition := ⟨10, 0, 0⟩ }

/-- Authoritative snapshot at the origin acknowledging sequence 5. -/
def snapC3 : Snapshot :=
  { position := ⟨0, 0, 0⟩, velocity := ⟨0, 0, 0⟩, health := 100,
    stamina := 100, grounded := true, inVehicle := false, vehicleId := none,
    lastInputSeq := 5 }

/-- A remote player rendered at (1, 2, 3) with no active smoothing. -/
def rpFix : RemotePlayer := { meshPos := ⟨1, 2, 3⟩, smoothing := none,
                              targetYaw := none }

/-- Empty physics world. -/
def pwEmpty : PWorld :=
  { engine := { bodies := [], colliders := [], fresh := 0 },
    bodies := [], colliders := [], entityData := [] }

/-- World after creating a player body for entity 7. -/
def pw1 : PWorld := createPlayerBody pwEmpty 7 ⟨0, 0, 0⟩ 1

/-- World after creating a second player body for the same entity 7. -/
def pw2 : PWorld := createPlayerBody pw1 7 ⟨0, 0, 0⟩ 1

/-- An empty car. -/
def vFix : Vehicle :=
  { vehicleType := .car, driverId := none, engineRunning := false,
    health := 100, fuel := 100 }

/-- Vehicle manager with the single empty vehicle 3. -/
def sC6 : VMState := { vehicles := [(3, vFix)], entityDriver := [(3, none)] }

/-! From here on: theorems.  First, basic facts about the association-list
operations and the player manager. -/

theorem alGet_alSet_self {κ α : Type} [DecidableEq κ]
    (m : List (κ × α)) (k : κ) (v : α) : alGet (alSet m k v) k = some v := by
  induction m with
  | nil => simp [alSet, alGet]
  | cons hd tl ih =>
    by_cases h : hd.1 = k
    · simp [alSet, alGet, h]
    · simp [alSet, alGet, h, ih]

theorem alGet_alSet_ne {κ α : Type} [DecidableEq κ]
    (m : List (κ × α)) (k k2 : κ) (v : α) (hne : k ≠ k2) :
    alGet (alSet m k v) k2 = alGet m k2 := by
  induction m with
  | nil => simp [alSet, alGet, hne]
  | cons hd tl ih =>
    by_cases h : hd.1 = k
    · simp [alSet, alGet, h, hne]
    · simp only [alSet, alGet, if_neg h]
      by_cases h2 : hd.1 = k2
      · simp [alGet, h2]
      · simp [alGet, h2, ih]

theorem alGet_mapVals {κ α : Type} [DecidableEq κ]
    (g : α → α) (m : List (κ × α)) (k : κ) :
    alGet (mapVals g m) k = (alGet m k).map g := by
  induction m with
  | nil => simp [mapVals, alGet]
  | cons hd tl ih =>
    by_cases h : hd.1 = k
    · simp [mapVals, alGet, h]
    · simpa [mapVals, alGet, h] using ih

theorem updatePlayerMovement_seq (env : Env) (p : Player) (input : PInput)
    (b : Body) (dt : ℚ) :
    (updatePlayerMovement env p input b dt).1.lastInputSeq = input.seq := rfl

theorem entryStep_input (env : Env) (dt : ℚ) (e : Entry) :
    (entryStep env dt e).input = e.input := by
  unfold entryStep
  split <;> rfl

theorem pmUpdate_get (env : Env) (dt : ℚ) (m : PlayerMgr) (cid : Nat) :
    alGet (pmUpdate env dt m) cid = (alGet m cid).map (entryStep env dt) :=
  alGet_mapVals _ m cid

theorem pmUpdate_storedSeq (env : Env) (dt : ℚ) (m : PlayerMgr) (cid : Nat) :
    storedSeqOf (pmUpdate env dt m) cid = storedSeqOf m cid := by
  unfold storedSeqOf
  rw [pmUpdate_get]
  cases alGet m cid with
  | none => rfl
  | some e => simp [entryStep_input]

theorem pmUpdate_lastSeq_ge (env : Env) (dt : ℚ) (m : PlayerMgr) (cid : Nat)
    (hinv : lastSeqOf m cid ≤ storedSeqOf m cid) :
    lastSeqOf m cid ≤ lastSeqOf (pmUpdate env dt m) cid := by
  unfold lastSeqOf storedSeqOf at *
  rw [pmUpdate_get]
  cases h : alGet m cid with
  | none => simp [h]
  | some e =>
    rw [h] at hinv
    simp only [h, Option.map_some']
    unfold entryStep
    by_cases hv : e.player.vehicleId ≠ none
    · simp [hv]
    · simpa [hv, updatePlayerMovement_seq] using hinv

theorem pmUpdate_inv (env : Env) (dt : ℚ) (m : PlayerMgr) (cid : Nat)
    (hinv : lastSeqOf m cid ≤ storedSeqOf m cid) :
    lastSeqOf (pmUpdate env dt m) cid ≤ storedSeqOf (pmUpdate env dt m) cid := by
  unfold lastSeqOf storedSeqOf at *
  rw [pmUpdate_get]
  cases h : alGet m cid with
  | none => simp [h]
  | some e =>
    rw [h] at hinv
    simp only [h, Option.map_some']
    unfold entryStep
    by_cases hv : e.player.vehicleId ≠ none
    · simpa [hv] using hinv
    · simp [hv, updatePlayerMovement_seq]

theorem setPlayerInput_get_ne (m : PlayerMgr) (c cid : Nat) (i : PInput)
    (hne : c ≠ cid) : alGet (setPlayerInput m c i) cid = alGet m cid := by
  unfold setPlayerInput
  cases h : alGet m c with
  | none => rfl
  | some e =>
    by_cases hv : e.player.vehicleId ≠ none
    · simp [hv]
    · simp [hv, alGet_alSet_ne _ _ _ _ hne]

theorem setPlayerInput_self_cases (m : PlayerMgr) (cid : Nat) (i : PInput) :
    setPlayerInput m cid i = m ∨
    (storedSeqOf (setPlayerInput m cid i) cid = i.seq ∧
      lastSeqOf (setPlayerInput m cid i) cid = lastSeqOf m cid) := by
  unfold setPlayerInput
  cases h : alGet m cid with
  | none => exact Or.inl rfl
  | some e =>
    by_cases hv : e.player.vehicleId ≠ none
    · exact Or.inl (if_pos hv)
    · right
      unfold storedSeqOf lastSeqOf
      simp [hv, alGet_alSet_self, h]

theorem chainLe_of_le {a a2 : Nat} {l : List Nat} (h : a2 ≤ a)
    (hc : List.Chain (· ≤ ·) a l) : List.Chain (· ≤ ·) a2 l := by
  cases hc with
  | nil => exact List.Chain.nil
  | cons hab hc => exact List.Chain.cons (le_trans h hab) hc

theorem lastSeqTrace_headI (env : Env) (cid : Nat) (m : PlayerMgr)
    (evs : List PEvent) :
    (lastSeqTrace env cid m evs).head? = some (lastSeqOf m cid) := by
  cases evs <;> rfl

/-- C1 (corrected, counterexample): the server performs no sequence check in
`setPlayerInput`; delivering the input with sequence number 1 after the
input with sequence number 2 has been processed makes `lastProcessedInputSeq`
regress from 2 to 1 on the next tick, so the per-tick trace is not
non-decreasing and the stale input is not ignored. -/
theorem C1_counterexample :
    lastSeqTrace envFix 1 mgrFix
        [.deliver 1 (inFix 2), .tick (1/30), .deliver 1 (inFix 1),
         .tick (1/30)] = [0, 0, 2, 2, 1] ∧
    ¬ List.Chain' (· ≤ ·)
      (lastSeqTrace envFix 1 mgrFix
        [.deliver 1 (inFix 2), .tick (1/30), .deliver 1 (inFix 1),
         .tick (1/30)]) := by
  have h : lastSeqTrace envFix 1 mgrFix
      [.deliver 1 (inFix 2), .tick (1/30), .deliver 1 (inFix 1),
       .tick (1/30)] = [0, 0, 2, 2, 1] := by decide!
  refine ⟨h, ?_⟩
  rw [h]
  simp [List.chain'_cons]

/-- C1 (corrected, amended): input handling is last-write-wins with no
sequence check, and each tick sets `lastProcessedInputSeq` to the stored
input's sequence number; therefore, provided the inputs delivered for a
client arrive with non-decreasing sequence numbers (chained above the
currently stored sequence number), that client's `lastProcessedInputSeq` is
non-decreasing across all events of the run. -/
theorem C1_amended (env : Env) (cid : Nat) (evs : List PEvent) (m : PlayerMgr)
    (hmono : List.Chain (· ≤ ·) (storedSeqOf m cid) (deliverSeqs cid evs))
    (hinv : lastSeqOf m cid ≤ storedSeqOf m cid) :
    List.Chain' (· ≤ ·) (lastSeqTrace env cid m evs) := by
  induction evs generalizing m with
  | nil => simp [lastSeqTrace]
  | cons e es ih =>
    have key : lastSeqOf m cid ≤ lastSeqOf (pStep env m e) cid ∧
        lastSeqOf (pStep env m e) cid ≤ storedSeqOf (pStep env m e) cid ∧
        List.Chain (· ≤ ·) (storedSeqOf (pStep env m e) cid)
          (deliverSeqs cid es) := by
      cases e with
      | tick dt =>
        refine ⟨pmUpdate_lastSeq_ge env dt m cid hinv,
          pmUpdate_inv env dt m cid hinv, ?_⟩
        rw [show pStep env m (.tick dt) = pmUpdate env dt m from rfl,
          pmUpdate_storedSeq]
        simpa [deliverSeqs] using hmono
      | deliver c i =>
        by_cases hc : c = cid
        · subst hc
          rw [show deliverSeqs c (.deliver c i :: es) =
              i.seq :: deliverSeqs c es from by simp [deliverSeqs]] at hmono
          obtain ⟨hle, hchain⟩ := List.chain_cons.mp hmono
          rcases setPlayerInput_self_cases m c i with heq | ⟨hst, hla⟩
          · rw [show pStep env m (.deliver c i) = setPlayerInput m c i from
              rfl, heq]
            exact ⟨le_refl _, hinv, chainLe_of_le hle hchain⟩
          · rw [show pStep env m (.deliver c i) = setPlayerInput m c i from
              rfl]
            rw [hst, hla]
            exact ⟨le_refl _, le_trans hinv hle, hchain⟩
        · have hg : alGet (setPlayerInput m c i) cid = alGet m cid :=
            setPlayerInput_get_ne m c cid i hc
          have h1 : lastSeqOf (setPlayerInput m c i) cid = lastSeqOf m cid := by
            unfold lastSeqOf; rw [hg]
          have h2 : storedSeqOf (setPlayerInput m c i) cid =
              storedSeqOf m cid := by
            unfold storedSeqOf; rw [hg]
          rw [show pStep env m (.deliver c i) = setPlayerInput m c i from rfl]
          rw [h1, h2]
          exact ⟨le_refl _, hinv, by simpa [deliverSeqs, hc] using hmono⟩
    show List.Chain' (· ≤ ·)
      (lastSeqOf m cid :: lastSeqTrace env cid (pStep env m e) es)
    refine List.chain'_cons'.mpr ⟨?_, ih (pStep env m e) key.2.2 key.2.1⟩
    intro b hb
    rw [lastSeqTrace_headI] at hb
    cases hb
    exact key.1

/-- C1 amended, witness: an in-order delivery run (sequences 1 then 2) has a
non-decreasing `lastProcessedInputSeq` trace. -/
theorem C1_witness :
    List.Chain' (· ≤ ·)
      (lastSeqTrace envFix 1 mgrFix
        [.deliver 1 (inFix 1), .tick (1/30), .deliver 1 (inFix 2),
         .tick (1/30)]) :=
  C1_amended envFix 1 _ mgrFix
    (List.Chain.cons (by decide) (List.Chain.cons (by decide) List.Chain.nil))
    (by decide)

/-- C5 (confirmed): on an update tick whose input has `jump = true` while
the player is not grounded (or is crouching), and whose body is not below
the terrain safety clamp, the vertical velocity written to the body equals
the body's current vertical velocity (no jump impulse, nothing queued),
while `lastProcessedInputSeq` is still set to the input's sequence number
unconditionally. -/
theorem C5_jump_rejected_still_acked (env : Env) (p : Player) (input : PInput)
    (b : Body) (dt : ℚ)
    (hjump : input.jump = true)
    (hrej : env.groundedAt b.pos = false ∨ input.crouch = true)
    (hnoclamp : env.heightAt b.pos.x b.pos.z + playerHeight / 2 - 1 ≤ b.pos.y) :
    (updatePlayerMovement env p input b dt).2.vel.y = b.vel.y ∧
    (updatePlayerMovement env p input b dt).1.lastInputSeq = input.seq := by
  refine ⟨?_, rfl⟩
  have hcl : ¬ (b.pos.y < env.heightAt b.pos.x b.pos.z + playerHeight / 2 - 1) :=
    not_lt.mpr hnoclamp
  unfold updatePlayerMovement
  rcases hrej with h | h
  · simp [h, hcl]
  · simp [h, hcl]

/-- C5 witness: a concrete airborne jump request is rejected (vertical
velocity unchanged) yet acknowledged. -/
theorem C5_witness :
    (updatePlayerMovement envAir playerFix inJump bodyFix (1/30)).2.vel.y =
      bodyFix.vel.y ∧
    (updatePlayerMovement envAir playerFix inJump bodyFix
      (1/30)).1.lastInputSeq = inJump.seq :=
  C5_jump_rejected_still_acked envAir playerFix inJump bodyFix (1/30) rfl
    (Or.inl rfl) (by decide!)

/-- C10 (confirmed): while a player is in a vehicle, `setPlayerInput`
discards the message leaving the whole manager state unchanged, the per-tick
update maps the player's entry to itself, and consequently the
`lastProcessedInputSeq` reported for that client after delivery plus a tick
equals the one before. -/
theorem C10_vehicle_inputs_ignored (env : Env) (dt : ℚ) (m : PlayerMgr)
    (cid v : Nat) (input : PInput) (e : Entry)
    (hget : alGet m cid = some e) (hveh : e.player.vehicleId = some v) :
    setPlayerInput m cid input = m ∧
    alGet (pmUpdate env dt m) cid = alGet m cid ∧
    lastSeqOf (pmUpdate env dt (setPlayerInput m cid input)) cid =
      lastSeqOf m cid := by
  have h1 : setPlayerInput m cid input = m := by
    unfold setPlayerInput
    rw [hget]
    simp [hveh]
  refine ⟨h1, ?_, ?_⟩
  · rw [pmUpdate_get, hget]
    simp [entryStep, hveh]
  · rw [h1]
    unfold lastSeqOf
    rw [pmUpdate_get, hget]
    simp [entryStep, hveh, hget]

/-- C10 witness: a concrete in-vehicle player whose delivered input changes
nothing. -/
theorem C10_witness :
    setPlayerInput mgrVeh 2 (inFix 9) = mgrVeh ∧
    alGet (pmUpdate envFix (1/30) mgrVeh) 2 = alGet mgrVeh 2 ∧
    lastSeqOf (pmUpdate envFix (1/30) (setPlayerInput mgrVeh 2 (inFix 9))) 2 =
      lastSeqOf mgrVeh 2 :=
  C10_vehicle_inputs_ignored envFix (1/30) mgrVeh 2 5 (inFix 9) entryVeh
    (by decide) rfl

/-! Facts about the chunk streaming manager. -/

theorem loadChunk_unloadQueue (st : TState) (k : ChunkKey) :
    (loadChunk st k).unloadQueue = st.unloadQueue := by
  unfold loadChunk
  split <;> rfl

theorem loadChunk_mem (st : TState) (k k2 : ChunkKey) (h : k2 ∈ st.loaded) :
    k2 ∈ (loadChunk st k).loaded := by
  unfold loadChunk
  split
  · exact h
  · exact List.mem_append_left _ h

theorem drainLoad_unloadQueue (q : List ChunkKey) :
    ∀ (c : Nat) (st : TState),
      (drainLoad q c st).unloadQueue = st.unloadQueue := by
  induction q with
  | nil => intro c st; rfl
  | cons k rest ih =>
    intro c st
    unfold drainLoad
    by_cases h1 : maxChunksPerFrame ≤ c
    · rw [if_pos h1]
    · rw [if_neg h1]
      by_cases h2 : k ∈ st.loaded
      · rw [if_pos h2]; exact ih c st
      · rw [if_neg h2, ih, loadChunk_unloadQueue]

theorem drainLoad_mem (q : List ChunkKey) :
    ∀ (c : Nat) (st : TState) (k2 : ChunkKey), k2 ∈ st.loaded →
      k2 ∈ (drainLoad q c st).loaded := by
  induction q with
  | nil => intro c st k2 h; exact h
  | cons k rest ih =>
    intro c st k2 h
    unfold drainLoad
    by_cases h1 : maxChunksPerFrame ≤ c
    · rw [if_pos h1]; exact h
    · rw [if_neg h1]
      by_cases h2 : k ∈ st.loaded
      · rw [if_pos h2]; exact ih c st k2 h
      · rw [if_neg h2]; exact ih _ _ k2 (loadChunk_mem st k k2 h)

theorem unloadChunk_mem (st : TState) (k k2 : ChunkKey) (hne : k2 ≠ k)
    (h : k2 ∈ st.loaded) : k2 ∈ (unloadChunk st k).loaded := by
  unfold unloadChunk
  by_cases hl : k ∈ st.loaded
  · rw [if_pos hl]
    exact List.mem_filter.mpr ⟨h, by simpa using hne⟩
  · rw [if_neg hl]; exact h

theorem drainUnload_mem (q : List ChunkKey) :
    ∀ (c : Nat) (st : TState) (k2 : ChunkKey), k2 ∉ q → k2 ∈ st.loaded →
      k2 ∈ (drainUnload q c st).loaded := by
  induction q with
  | nil => intro c st k2 _ h; exact h
  | cons k rest ih =>
    intro c st k2 hq h
    have hne : k2 ≠ k := fun he => hq (he ▸ List.mem_cons_self k rest)
    have hrest : k2 ∉ rest := fun hr => hq (List.mem_cons_of_mem k hr)
    unfold drainUnload
    by_cases h1 : maxChunksPerFrame ≤ c
    · rw [if_pos h1]; exact h
    · rw [if_neg h1]
      by_cases h2 : k ∈ st.loaded
      · rw [if_pos h2]
        exact ih _ _ k2 hrest (unloadChunk_mem st k k2 hne h)
      · rw [if_neg h2]; exact ih _ _ k2 hrest h

/-- A key belonging to the required set is never pushed by the
push-unless-required-or-queued loop: if it is not in the accumulator at the
start, it is not in the result. -/
theorem pushUnless_not_mem (req : List ChunkKey) (k : ChunkKey)
    (hreq : k ∈ req) :
    ∀ (l q : List ChunkKey), k ∉ q →
      k ∉ l.foldl
        (fun q2 k2 => if k2 ∈ req ∨ k2 ∈ q2 then q2 else q2 ++ [k2]) q := by
  intro l
  induction l with
  | nil => intro q hq; exact hq
  | cons a t ih =>
    intro q hq
    simp only [List.foldl_cons]
    by_cases hc : a ∈ req ∨ a ∈ q
    · rw [if_pos hc]; exact ih q hq
    · rw [if_neg hc]
      apply ih
      intro hmem
      rcases List.mem_append.mp hmem with h1 | h1
      · exact hq h1
      · have ha : k = a := by simpa using h1
        exact hc (Or.inl (ha ▸ hreq))

/-- C2 (corrected, counterexample): after force-loading the 7×7 chunks
around the origin, moving the tracked player far away (queueing all of them
for unload) and moving it back, chunk (−3, −1) is in the required set of the
second update, is loaded and still queued for unload when that update runs —
and the update unloads it anyway, removing its collider, because the drain
only re-checks loadedness. -/
theorem C2_counterexample :
    ((-3, -1) : ChunkKey) ∈ requiredChunks [⟨0, 0⟩] ∧
    ((-3, -1) : ChunkKey) ∈ tEx1.loaded ∧
    ((-3, -1) : ChunkKey) ∈ tEx1.unloadQueue ∧
    ((-3, -1) : ChunkKey) ∉ tEx2.loaded ∧
    ((-3, -1) : ChunkKey) ∉ tEx2.physChunks := by decide!

/-- C2 (corrected, amended): the protection holds only for chunks not
already sitting in the unload queue — a required chunk that is loaded and
not queued for unload when `updateForPlayers` runs is never unloaded by that
update (it is not enqueued, and the drain only pops queue members); a chunk
already in the queue is unloaded at drain time even if re-required, and is
re-queued for load by a later update. -/
theorem C2_amended (ps : List PlayerPos) (st : TState) (k : ChunkKey)
    (hreq : k ∈ requiredChunks ps) (hnq : k ∉ st.unloadQueue)
    (hld : k ∈ st.loaded) : k ∈ (updateForPlayers ps st).loaded := by
  have h1 : k ∉ enqueueUnloads (requiredChunks ps) st :=
    pushUnless_not_mem (requiredChunks ps) k hreq st.loaded st.unloadQueue hnq
  have key : ∀ st1 : TState, st1.loaded = st.loaded →
      st1.unloadQueue = enqueueUnloads (requiredChunks ps) st →
      k ∈ (drainUnload (drainLoad st1.loadQueue 0 st1).unloadQueue 0
            (drainLoad st1.loadQueue 0 st1)).loaded := by
    intro st1 hl hu
    apply drainUnload_mem
    · rw [drainLoad_unloadQueue, hu]; exact h1
    · apply drainLoad_mem; rw [hl]; exact hld
  exact key _ rfl rfl

/-- C2 amended, witness: a loaded, required, unqueued chunk survives an
update. -/
theorem C2_witness :
    ((0, 0) : ChunkKey) ∈ requiredChunks [⟨0, 0⟩] ∧
    ((0, 0) : ChunkKey) ∈ (updateForPlayers [⟨0, 0⟩] tWit).loaded :=
  ⟨by decide!,
    C2_amended [⟨0, 0⟩] tWit (0, 0) (by decide!) (by decide!) (by decide!)⟩

/-! Facts about the spawn-point search. -/

/-- The attempt loop, run with no city candidate in reach, returns either
the incoming best point (with its flatness bounding every attempt in range)
or a candidate minimizing flatness over the range. -/
theorem findSpawnLoop_argmin (o : NoiseOracle) (rand : Nat → ℚ)
    (hcity : ∀ t : Nat, o.cityAt (candX rand t) (candZ rand t) ≤ 3/10) :
    ∀ (n i : Nat) (best : Vec3) (bf : ℚ),
      ∃ fr : ℚ,
        ((findSpawnLoop o rand n i best (some bf) = best ∧ fr = bf) ∨
          (∃ j, i ≤ j ∧ j < i + n ∧
            findSpawnLoop o rand n i best (some bf) = spawnCand o rand j ∧
            fr = flatnessAt o (candX rand j) (candZ rand j) ∧ fr < bf)) ∧
        fr ≤ bf ∧
        ∀ t, i ≤ t → t < i + n →
          fr ≤ flatnessAt o (candX rand t) (candZ rand t) := by
  intro n
  induction n with
  | zero =>
    intro i best bf
    exact ⟨bf, Or.inl ⟨rfl, rfl⟩, le_refl bf,
      fun t h1 h2 => absurd h2 (by omega)⟩
  | succ n ih =>
    intro i best bf
    have hc : ¬ (o.cityAt (candX rand i) (candZ rand i) > 3/10) :=
      not_lt.mpr (hcity i)
    by_cases hlt : flatnessAt o (candX rand i) (candZ rand i) < bf
    · have hstep : findSpawnLoop o rand (n + 1) i best (some bf) =
          findSpawnLoop o rand n (i + 1) (spawnCand o rand i)
            (some (flatnessAt o (candX rand i) (candZ rand i))) := by
        simp only [findSpawnLoop]
        rw [if_neg hc, if_pos (by simpa using hlt)]
        rfl
      obtain ⟨fr, hform, hle, hall⟩ :=
        ih (i + 1) (spawnCand o rand i)
          (flatnessAt o (candX rand i) (candZ rand i))
      refine ⟨fr, ?_, le_trans hle (le_of_lt hlt), ?_⟩
      · rcases hform with ⟨heq, hfr⟩ | ⟨j, hj1, hj2, heq, hfr, hlt2⟩
        · exact Or.inr ⟨i, le_refl i, by omega, hstep ▸ heq, by rw [hfr],
            hfr ▸ hlt⟩
        · exact Or.inr ⟨j, by omega, by omega, hstep ▸ heq, hfr,
            lt_trans hlt2 hlt⟩
      · intro t h1 h2
        rcases eq_or_lt_of_le h1 with he | hgt
        · exact he ▸ hle
        · exact hall t hgt (by omega)
    · have hstep : findSpawnLoop o rand (n + 1) i best (some bf) =
          findSpawnLoop o rand n (i + 1) best (some bf) := by
        simp only [findSpawnLoop]
        rw [if_neg hc, if_neg (by simpa using hlt)]
      obtain ⟨fr, hform, hle, hall⟩ := ih (i + 1) best bf
      refine ⟨fr, ?_, hle, ?_⟩
      · rcases hform with ⟨heq, hfr⟩ | ⟨j, hj1, hj2, heq, hfr, hlt2⟩
        · exact Or.inl ⟨hstep ▸ heq, hfr⟩
        · exact Or.inr ⟨j, by omega, by omega, hstep ▸ heq, hfr, hlt2⟩
      · intro t h1 h2
        rcases eq_or_lt_of_le h1 with he | hgt
        · exact he ▸ le_trans hle (not_lt.mp hlt)
        · exact hall t hgt (by omega)

/-- C7 (corrected, counterexample): with a steep linear terrain oracle and
no city anywhere, the spawn search returns a point whose city influence is
not above 0.3 and whose height sample at +5 in the x direction deviates from
the center sample by exactly 1000 — the search minimizes the flatness score
over 50 random attempts but enforces no absolute flatness budget. -/
theorem C7_counterexample :
    oSteep.cityAt (findSpawnPoint oSteep (fun _ => 0)).x
        (findSpawnPoint oSteep (fun _ => 0)).z ≤ 3/10 ∧
    |oSteep.heightAt ((findSpawnPoint oSteep (fun _ => 0)).x + 5)
        (findSpawnPoint oSteep (fun _ => 0)).z -
      oSteep.heightAt (findSpawnPoint oSteep (fun _ => 0)).x
        (findSpawnPoint oSteep (fun _ => 0)).z| = 1000 := by decide!

/-- One step of the attempt loop from the initial infinite best flatness: a
non-city candidate always becomes the best point. -/
theorem findSpawnLoop_step_none (o : NoiseOracle) (rand : Nat → ℚ)
    (n i : Nat) (best : Vec3)
    (hc : ¬ (o.cityAt (candX rand i) (candZ rand i) > 3/10)) :
    findSpawnLoop o rand (n + 1) i best none =
      findSpawnLoop o rand n (i + 1) (spawnCand o rand i)
        (some (flatnessAt o (candX rand i) (candZ rand i))) := by
  simp only [findSpawnLoop]
  rw [if_neg hc]
  rfl

/-- C7 (corrected, amended): a candidate with city influence above 0.3 is
returned immediately; otherwise (here: when no attempt hits a city) the
returned position is one of the 50 sampled candidates, placed 2 above its
height sample, and its flatness score is minimal among all 50 attempts — a
relative minimum, not an absolute flatness budget. -/
theorem C7_amended (o : NoiseOracle) (rand : Nat → ℚ)
    (hcity : ∀ t : Nat, o.cityAt (candX rand t) (candZ rand t) ≤ 3/10) :
    ∃ j, j < 50 ∧ findSpawnPoint o rand = spawnCand o rand j ∧
      ∀ t, t < 50 →
        flatnessAt o (candX rand j) (candZ rand j) ≤
          flatnessAt o (candX rand t) (candZ rand t) := by
  have hc : ¬ (o.cityAt (candX rand 0) (candZ rand 0) > 3/10) :=
    not_lt.mpr (hcity 0)
  have hstep : findSpawnPoint o rand =
      findSpawnLoop o rand 49 1 (spawnCand o rand 0)
        (some (flatnessAt o (candX rand 0) (candZ rand 0))) := by
    show findSpawnLoop o rand (49 + 1) 0 ⟨0, 0, 0⟩ none = _
    exact findSpawnLoop_step_none o rand 49 0 ⟨0, 0, 0⟩ hc
  obtain ⟨fr, hform, hle, hall⟩ :=
    findSpawnLoop_argmin o rand hcity 49 1 (spawnCand o rand 0)
      (flatnessAt o (candX rand 0) (candZ rand 0))
  rcases hform with ⟨heq, hfr⟩ | ⟨j, hj1, hj2, heq, hfr, hlt⟩
  · refine ⟨0, by omega, by rw [hstep, heq], ?_⟩
    intro t ht
    rcases Nat.eq_zero_or_pos t with h0 | hpos
    · subst h0; exact le_refl _
    · exact hfr ▸ hall t (by omega) (by omega)
  · refine ⟨j, by omega, by rw [hstep, heq], ?_⟩
    intro t ht
    rcases Nat.eq_zero_or_pos t with h0 | hpos
    · subst h0; exact hfr ▸ le_of_lt hlt
    · exact hfr ▸ hall t (by omega) (by omega)

/-- C7 amended, witness: with a flat no-city oracle the returned point is
one of the candidates and minimizes flatness over the attempts. -/
theorem C7_witness :
    ∃ j, j < 50 ∧
      findSpawnPoint oFlat (fun _ => 0) = spawnCand oFlat (fun _ => 0) j ∧
      ∀ t, t < 50 →
        flatnessAt oFlat (candX (fun _ => 0) j) (candZ (fun _ => 0) j) ≤
          flatnessAt oFlat (candX (fun _ => 0) t) (candZ (fun _ => 0) t) :=
  C7_amended oFlat (fun _ => 0)
    (by intro t; show (0 : ℚ) ≤ 3/10; decide!)

/-! Claim C3: client reconciliation. -/

/-- Replaying an all-acknowledged pending buffer is a no-op. -/
theorem replay_acked_noop (f : PInput → LocalState → LocalState)
    (ack : Nat) :
    ∀ (l : List PInput), (∀ d ∈ l, d.seq ≤ ack) →
      ∀ s : LocalState,
        l.foldl (fun s2 d => if ack < d.seq then f d s2 else s2) s = s := by
  intro l
  induction l with
  | nil => intro _ s; rfl
  | cons d t ih =>
    intro hall s
    simp only [List.foldl_cons]
    rw [if_neg (not_lt.mpr (hall d (List.mem_cons_self d t)))]
    exact ih (fun d2 hd2 => hall d2 (List.mem_cons_of_mem d hd2)) s

/-- C3 (corrected, counterexample): a predicted position diverged from the
authoritative position by one unit falls in the middle correction band, and
one snapshot cycle with nothing to replay moves the predicted baseline only
10% of the way — the result is (9/10, 0, 0), not the authoritative origin.
(The replay body is irrelevant here and instantiated with the identity.) -/
theorem C3_counterexample :
    (updateLocalPlayerFromServer (fun _ s => s) [] lsC3
        snapC3).predictedPosition = ⟨9/10, 0, 0⟩ ∧
    (updateLocalPlayerFromServer (fun _ s => s) [] lsC3
        snapC3).predictedPosition ≠ snapC3.position := by
  constructor <;> decide!

/-- C3 (corrected, amended): exact convergence holds only in the hard-snap
tier — when the prediction error exceeds the snap threshold 2
(`errSq > 4`), one snapshot followed by a replay of an all-acknowledged
(hence empty-effect) pending buffer leaves the predicted position exactly
equal to the authoritative position, for every replay function; in the
middle band the baseline only moves 10% toward authoritative, and below 0.1
it is untouched. -/
theorem C3_amended (f : PInput → LocalState → LocalState)
    (pending : List PInput) (st : LocalState) (snap : Snapshot)
    (hdiv : distSq st.predictedPosition snap.position > 4)
    (hack : ∀ d ∈ pending, d.seq ≤ snap.lastInputSeq) :
    (updateLocalPlayerFromServer f pending st snap).predictedPosition =
      snap.position := by
  simp only [updateLocalPlayerFromServer]
  rw [replay_acked_noop f snap.lastInputSeq pending hack]
  split
  · rfl
  · rename_i hno
    exact absurd hdiv hno

/-- C3 amended, witness: a ten-unit divergence snaps exactly onto the
authoritative position. -/
theorem C3_witness :
    (updateLocalPlayerFromServer (fun _ s => s) [] lsC3Far
        snapC3).predictedPosition = snapC3.position :=
  C3_amended (fun _ s => s) [] lsC3Far snapC3 (by decide!) (by simp)

/-! Claim C8: remote-entity smoothing. -/

/-- C8 (confirmed): receipt of a remote update never touches the rendered
mesh position — it only installs the smoothing descriptor — and for every
render time at or after the receipt time the code's rendered position
(`t = min(1, ·)`) equals the spec formula with `t = clamp(·, 0, 1)`:
the blend from `from` toward `to + velocity * delayWindow * (1 - eased)` by
the smoothstep-eased factor. -/
theorem C8_smoothing_formula (rp : RemotePlayer) (targetPos targetVel : Vec3)
    (recvTime renderTime : ℚ) (yaw : Option ℚ)
    (h : recvTime ≤ renderTime) :
    (updateOtherPlayerFromServer rp targetPos targetVel recvTime yaw).meshPos
      = rp.meshPos ∧
    (updateOtherPlayerFromServer rp targetPos targetVel recvTime
        yaw).smoothing = some
      { fromPos := rp.meshPos, toPos := targetPos, velocity := targetVel,
        start := recvTime, duration := remoteSmoothingWindow * 1000 } ∧
    smoothedPosition
        { fromPos := rp.meshPos, toPos := targetPos, velocity := targetVel,
          start := recvTime, duration := remoteSmoothingWindow * 1000 }
        renderTime =
      specRenderedPosition
        { fromPos := rp.meshPos, toPos := targetPos, velocity := targetVel,
          start := recvTime, duration := remoteSmoothingWindow * 1000 }
        renderTime remoteSmoothingWindow := by
  refine ⟨rfl, rfl, ?_⟩
  have hd : (0 : ℚ) ≤ remoteSmoothingWindow * 1000 := by
    norm_num [remoteSmoothingWindow]
  have hx : 0 ≤ (renderTime - recvTime) / (remoteSmoothingWindow * 1000) :=
    div_nonneg (by linarith) hd
  have hmax :
      max 0 (min 1 ((renderTime - recvTime) / (remoteSmoothingWindow * 1000)))
        = min 1 ((renderTime - recvTime) / (remoteSmoothingWindow * 1000)) :=
    max_eq_right (le_min (by norm_num) hx)
  simp only [smoothedPosition, specRenderedPosition]
  rw [hmax]

/-- C8 witness: a concrete receipt plus a later render frame. -/
theorem C8_witness :
    (updateOtherPlayerFromServer rpFix ⟨4, 5, 6⟩ ⟨1, 0, 0⟩ 0 none).meshPos
      = rpFix.meshPos ∧
    (updateOtherPlayerFromServer rpFix ⟨4, 5, 6⟩ ⟨1, 0, 0⟩ 0 none).smoothing
      = some { fromPos := rpFix.meshPos, toPos := ⟨4, 5, 6⟩,
               velocity := ⟨1, 0, 0⟩, start := 0,
               duration := remoteSmoothingWindow * 1000 } ∧
    smoothedPosition
        { fromPos := rpFix.meshPos, toPos := ⟨4, 5, 6⟩,
          velocity := ⟨1, 0, 0⟩, start := 0,
          duration := remoteSmoothingWindow * 1000 } 50 =
      specRenderedPosition
        { fromPos := rpFix.meshPos, toPos := ⟨4, 5, 6⟩,
          velocity := ⟨1, 0, 0⟩, start := 0,
          duration := remoteSmoothingWindow * 1000 } 50
        remoteSmoothingWindow :=
  C8_smoothing_formula rpFix ⟨4, 5, 6⟩ ⟨1, 0, 0⟩ 0 50 none (by decide!)

/-! Claim C9: body creation bookkeeping. -/

/-- C9 (corrected, counterexample): creating a player body twice for entity
7 leaves the tracking map pointing at the second body (handle 2), but the
first body (handle 0) and its collider (handle 1) are still present in the
engine world — the first creation's objects are never removed from the
simulation. -/
theorem C9_counterexample :
    alGet pw2.bodies 7 = some 2 ∧
    pw2.engine.bodies.map RigidBody.handle = [0, 2] ∧
    pw2.engine.colliders.map Collider.handle = [1, 3] := by
  refine ⟨?_, ?_, ?_⟩ <;> decide!

/-- C9 (corrected, amended): body creation is overwrite-and-leak, not
reject-or-replace-cleanly — after `createPlayerBody` or `createVehicleBody`
the tracking map associates the entity id with exactly the newly created
body handle (so lookups see one body per id), while the engine world keeps
every pre-existing body and collider and gains the new ones; nothing is
removed, so re-creating an existing id orphans its previous body and
collider in the simulation. -/
theorem C9_amended (w : PWorld) (entityId : Nat) (position : Vec3)
    (ownerId : Nat) (vt : VehicleType) (rotation : Quat) :
    alGet (createPlayerBody w entityId position ownerId).bodies entityId =
        some w.engine.fresh ∧
    (createPlayerBody w entityId position ownerId).engine.bodies.map
        RigidBody.handle =
      w.engine.bodies.map RigidBody.handle ++ [w.engine.fresh] ∧
    (createPlayerBody w entityId position ownerId).engine.colliders.map
        Collider.handle =
      w.engine.colliders.map Collider.handle ++ [w.engine.fresh + 1] ∧
    alGet (createVehicleBody w entityId vt position rotation).bodies
        entityId = some w.engine.fresh ∧
    (createVehicleBody w entityId vt position rotation).engine.bodies.map
        RigidBody.handle =
      w.engine.bodies.map RigidBody.handle ++ [w.engine.fresh] ∧
    (createVehicleBody w entityId vt position rotation).engine.colliders.map
        Collider.handle =
      w.engine.colliders.map Collider.handle ++ [w.engine.fresh + 1] := by
  refine ⟨?_, ?_, ?_, ?_, ?_, ?_⟩ <;>
    simp [createPlayerBody, createVehicleBody, alGet_alSet_self]

/-! Claim C6: single-driver vehicle entry. -/

/-- C6 (confirmed): `enterVehicle` succeeds exactly when the vehicle exists
with an empty driver slot; an unsuccessful call returns the state unchanged;
and for two entry requests for the same initially empty vehicle processed in
sequence (the single-threaded tick handles same-tick messages in order), the
first succeeds and the second fails leaving the first winner's state
untouched. -/
theorem C6_single_driver (s s2 : VMState) (eid p1 p2 : Nat) (v : Vehicle)
    (hget : alGet s.vehicles eid = some v) (hempty : v.driverId = none) :
    ((enterVehicle s2 eid p1).1 = true ↔
      ∃ v2, alGet s2.vehicles eid = some v2 ∧ v2.driverId = none) ∧
    ((enterVehicle s2 eid p1).1 = true ∨ (enterVehicle s2 eid p1).2 = s2) ∧
    (enterVehicle s eid p1).1 = true ∧
    (enterVehicle (enterVehicle s eid p1).2 eid p2).1 = false ∧
    (enterVehicle (enterVehicle s eid p1).2 eid p2).2 =
      (enterVehicle s eid p1).2 := by
  have hrun : enterVehicle s eid p1 =
      (true,
        { vehicles := alSet s.vehicles eid
            { v with driverId := some p1, engineRunning := true },
          entityDriver := match alGet s.entityDriver eid with
            | none => s.entityDriver
            | some _ => alSet s.entityDriver eid (some p1) }) := by
    unfold enterVehicle
    rw [hget]
    simp [hempty]
  have hsecond : enterVehicle (enterVehicle s eid p1).2 eid p2 =
      (false, (enterVehicle s eid p1).2) := by
    rw [hrun]
    unfold enterVehicle
    rw [alGet_alSet_self]
    simp
  refine ⟨?_, ?_, ?_, ?_, ?_⟩
  · unfold enterVehicle
    cases h3 : alGet s2.vehicles eid with
    | none => simp
    | some v3 =>
      by_cases hv : v3.driverId ≠ none
      · simp [hv]
      · simp [hv, not_not.mp hv]
  · unfold enterVehicle
    cases h3 : alGet s2.vehicles eid with
    | none => simp
    | some v3 =>
      by_cases hv : v3.driverId ≠ none
      · simp [hv]
      · simp [hv]
  · rw [hrun]
  · rw [hsecond]
  · rw [hsecond]

/-- C6 witness: concrete vehicle 3, players 10 and 20. -/
theorem C6_witness :
    ((enterVehicle sC6 3 10).1 = true ↔
      ∃ v2, alGet sC6.vehicles 3 = some v2 ∧ v2.driverId = none) ∧
    ((enterVehicle sC6 3 10).1 = true ∨ (enterVehicle sC6 3 10).2 = sC6) ∧
    (enterVehicle sC6 3 10).1 = true ∧
    (enterVehicle (enterVehicle sC6 3 10).2 3 20).1 = false ∧
    (enterVehicle (enterVehicle sC6 3 10).2 3 20).2 =
      (enterVehicle sC6 3 10).2 :=
  C6_single_driver sC6 sC6 3 10 20 vFix (by decide!) rfl

/-! Claim C4: the tick order and the snapshot fan-out. -/

theorem getPlayerState_clientId (cid : Nat) (e : Entry) :
    (getPlayerState cid e).clientId = cid := by
  unfold getPlayerState
  split <;> rfl

theorem getPlayerState_lastSeq (cid : Nat) (e : Entry) :
    (getPlayerState cid e).lastInputSeq = e.player.lastInputSeq := by
  unfold getPlayerState
  split <;> rfl

/-- The personalized acknowledgment field equals the manager's
`lastProcessedInputSeq` for that client (with the `|| 0` default for a
missing player). -/
theorem yourLastSeq_eq (m : PlayerMgr) (cid : Nat) :
    yourLastSeq (getAllPlayerStates m) cid = lastSeqOf m cid := by
  unfold yourLastSeq getAllPlayerStates lastSeqOf
  induction m with
  | nil => rfl
  | cons hd tl ih =>
    simp only [List.map_cons]
    by_cases h : hd.1 = cid
    · rw [List.find?_cons_of_pos _ (by simp [getPlayerState_clientId, h]),
        show alGet (hd :: tl) cid = some hd.2 from by simp [alGet, h]]
      simp [getPlayerState_lastSeq]
    · rw [List.find?_cons_of_neg _ (by simp [getPlayerState_clientId, h]),
        show alGet (hd :: tl) cid = alGet tl cid from by simp [alGet, h]]
      exact ih

/-- C4 (confirmed): one tick emits, in this exact order, the gather,
chunk-streaming, player, vehicle and physics-step phases, then at most
`maxChunksPerTick` chunk-data events per client (the first queued requests,
which are removed from the queue), then exactly one snapshot event per
`playing` client — non-playing connections receive none — carrying that
client's own post-update `lastProcessedInputSeq`; and the tick's state
update advances chunk streaming against the positions gathered from the
pre-update players, advances the player and vehicle managers, and steps the
physics world once. -/
theorem C4_tick_order (env : Env) (vehUpdate : VMState → VMState) (dt : ℚ)
    (st : ServerState) :
    (tick env vehUpdate dt st).2 =
      [TickPhase.gatherPositions, TickPhase.terrainUpdate,
       TickPhase.playerUpdate, TickPhase.vehicleUpdate,
       TickPhase.physicsStep] ++
      (st.clients.map (fun c =>
        (c.chunkRequests.take maxChunksPerTick).map
          (fun k => TickPhase.chunkData c.clientId k))).flatten ++
      st.clients.filterMap (fun c =>
        if c.playing then
          some (TickPhase.snapshot c.clientId
            (lastSeqOf (pmUpdate env dt st.pmgr) c.clientId))
        else none) ∧
    (tick env vehUpdate dt st).1.terrain =
      updateForPlayers (getPlayerPositions st.pmgr) st.terrain ∧
    (tick env vehUpdate dt st).1.pmgr = pmUpdate env dt st.pmgr ∧
    (tick env vehUpdate dt st).1.vstate = vehUpdate st.vstate ∧
    (tick env vehUpdate dt st).1.physicsStepped = st.physicsStepped + 1 ∧
    (tick env vehUpdate dt st).1.clients =
      st.clients.map (fun c =>
        { c with chunkRequests := c.chunkRequests.drop maxChunksPerTick }) := by
  refine ⟨?_, rfl, rfl, rfl, rfl, ?_⟩
  · simp only [tick, snapshotEvents, serveClient, List.map_map,
      List.filterMap_map, Function.comp, yourLastSeq_eq]
    rfl
  · simp only [tick, serveClient, List.map_map, Function.comp]
    rfl

end Cyberia
